import Mathlib

/-!
# Verification of the user-management backend

Shallow embedding of the NestJS/DynamoDB user-management service:
the `User` record (src/backend users/user.interface), the
`UsersService` CRUD operations (users/users.service.ts), the
`AuthService` credential validation and token issuance
(auth/auth.service.ts), the `JwtStrategy` live re-check
(auth/strategies/jwt.strategy.ts), and the `UsersController` /
`AuthController` request handlers.

Modelling conventions:
* The DynamoDB table is a `List User` keyed by `userId` (the table's
  partition key); a well-formed table has `Nodup` userIds.
* Timestamps (`createdAt`/`updatedAt`, ISO-8601 strings in the source)
  are `Nat` instants; "now" is passed explicitly where the source calls
  `new Date().toISOString()`.
* `bcrypt.hash` is an explicit parameter `hash : String → String`;
  `bcrypt.compare` is a parameter `compare : String → String → Bool`;
  `uuidv4()` is an explicit `newId` parameter; `jwtService.sign` is a
  parameter `sign : JwtPayload → String`.
* Thrown `HttpException`s become `Except HttpError`; each service
  operation also returns the table after the operation so that
  "store unchanged" is a real equation even on the error path.
* `putOk : Bool` models whether the DynamoDB `send` of a write command
  succeeds (false = the store throws a non-conditional error).
-/

namespace UserMgmt

/-- `enum UserRole { USER = 'USER', ADMIN = 'ADMIN' }` (user.interface). -/
inductive UserRole where
  | USER
  | ADMIN
deriving DecidableEq, Repr

/-- The stored `User` item (user.interface.ts).  `firstName`/`lastName`
are optional in the interface but `create` coalesces them to `''`, so the
stored record always carries strings; `avatarUrl` stays optional. -/
structure User where
  userId : String
  email : String
  passwordHash : String
  firstName : String
  lastName : String
  role : UserRole
  isDisabled : Bool
  createdAt : Nat
  updatedAt : Nat
  avatarUrl : Option String
deriving DecidableEq, Repr

/-- `Omit<User, 'passwordHash'>` — what every read path returns. -/
structure PublicUser where
  userId : String
  email : String
  firstName : String
  lastName : String
  role : UserRole
  isDisabled : Bool
  createdAt : Nat
  updatedAt : Nat
  avatarUrl : Option String
deriving DecidableEq, Repr

/-- The `const \x7b passwordHash, ...result \x7d = user` destructuring used by
every handler that returns a record. -/
def toPublic (u : User) : PublicUser :=
  { userId := u.userId
    email := u.email
    firstName := u.firstName
    lastName := u.lastName
    role := u.role
    isDisabled := u.isDisabled
    createdAt := u.createdAt
    updatedAt := u.updatedAt
    avatarUrl := u.avatarUrl }

/-- The DynamoDB table: a list of items keyed by `userId`. -/
abbrev Store := List User

/-- The NestJS `HttpException` subclasses thrown by the backend. -/
inductive HttpError where
  | badRequest (msg : String)
  | unauthorized (msg : String)
  | forbidden (msg : String)
  | notFound (msg : String)
  | conflict (msg : String)
  | internal (msg : String)
deriving DecidableEq, Repr

/-- HTTP status code of each exception class. -/
def HttpError.status : HttpError → Nat
  | .badRequest _ => 400
  | .unauthorized _ => 401
  | .forbidden _ => 403
  | .notFound _ => 404
  | .conflict _ => 409
  | .internal _ => 500

/-- `UsersService.findOneById`: `GetCommand` on the `userId` key,
`null` when absent. -/
def findOneById (store : Store) (userId : String) : Option User :=
  store.find? (fun u => u.userId = userId)

/-- `UsersService.findOneByEmail`: `QueryCommand` on the `EmailIndex`
GSI with `email = :email` where `:email` is `email.toLowerCase()`;
returns the first match or `null`. -/
def findOneByEmail (store : Store) (email : String) : Option User :=
  store.find? (fun u => u.email = email.toLower)

/-- `CreateUserDto` (users/dto/create-user.dto.ts): `email` and
`password` required, the rest optional (`role` may be supplied — the
`ValidationPipe` whitelist keeps it, on `/auth/register` too). -/
structure CreateUserDto where
  email : String
  password : String
  firstName : Option String := none
  lastName : Option String := none
  role : Option UserRole := none
  avatarUrl : Option String := none
deriving DecidableEq, Repr

/-- JavaScript truthiness of an optional string (`undefined` and `''`
are falsy). -/
def strTruthy (o : Option String) : Bool :=
  o.getD "" ≠ ""

/-- `UsersService.create`.  Faithful to the source:
* `if (!email || !password) throw BadRequest`;
* conflict check via `findOneByEmail` (lowercased query);
* the stored item lowercases the email, coalesces names with `|| ''`,
  and sets `role: createUserDto.role || UserRole.ADMIN` — note the
  source defaults the role to `ADMIN`, not `USER`;
* `PutCommand` with `ConditionExpression: attribute_not_exists(userId)`:
  an existing `userId` raises the 500 "ID conflict" error;
* any other store failure (`putOk = false`) raises 500
  "Could not create user.". -/
def UsersService.create (hash : String → String) (newId : String) (now : Nat)
    (putOk : Bool) (store : Store) (dto : CreateUserDto) :
    Except HttpError PublicUser × Store :=
  if dto.email = "" ∨ dto.password = "" then
    (.error (.badRequest "Email and password are required."), store)
  else
    match findOneByEmail store dto.email with
    | some _ => (.error (.conflict "Email already registered."), store)
    | none =>
      let userItem : User :=
        { userId := newId
          email := dto.email.toLower
          passwordHash := hash dto.password
          firstName := dto.firstName.getD ""
          lastName := dto.lastName.getD ""
          role := dto.role.getD UserRole.ADMIN
          isDisabled := false
          createdAt := now
          updatedAt := now
          avatarUrl := dto.avatarUrl }
      if ¬ putOk then
        (.error (.internal "Could not create user."), store)
      else if (findOneById store newId).isSome then
        (.error (.internal "Failed to create user due to ID conflict."), store)
      else
        (.ok (toPublic userItem), store ++ [userItem])

/-- `UpdateUserDto` (users/dto/update-user.dto.ts): every field optional;
admins may also change `role`, `isDisabled` and `password`. -/
structure UpdateUserDto where
  firstName : Option String := none
  lastName : Option String := none
  role : Option UserRole := none
  isDisabled : Option Bool := none
  password : Option String := none
  avatarUrl : Option String := none
deriving DecidableEq, Repr

/-- Does the DTO carry any non-password field?  (In the source: the
`Object.entries` loop added at least one `:key` value beyond `:ua`.) -/
def UpdateUserDto.hasNonPasswordField (d : UpdateUserDto) : Bool :=
  d.firstName.isSome || d.lastName.isSome || d.role.isSome ||
    d.isDisabled.isSome || d.avatarUrl.isSome

/-- Effect of the built `UpdateExpression` on the stored item: `SET
updatedAt = :ua` plus one `SET` clause per field present in the DTO;
a truthy `password` becomes `SET passwordHash = :ph` with the re-hashed
value.  Attributes not named in the expression keep their stored value. -/
def applyUpdate (hash : String → String) (now : Nat) (d : UpdateUserDto)
    (u : User) : User :=
  { u with
    updatedAt := now
    firstName := d.firstName.getD u.firstName
    lastName := d.lastName.getD u.lastName
    role := d.role.getD u.role
    isDisabled := d.isDisabled.getD u.isDisabled
    avatarUrl := match d.avatarUrl with
      | some a => some a
      | none => u.avatarUrl
    passwordHash := if strTruthy d.password then hash (d.password.getD "")
      else u.passwordHash }

/-- Write-back of an `UpdateCommand`: the item under the key is replaced
(on a well-formed table the key matches exactly one item). -/
def putItem (store : Store) (userId : String) (u' : User) : Store :=
  store.map (fun v => if v.userId = userId then u' else v)

/-- `UsersService.update`.  Faithful to the source, in source order:
* a truthy `password` shorter than 8 characters raises 400;
* if no non-password field is present and `password` is falsy, the
  expression holds only `:ua`, so the method returns the current record
  (via `findOneByIdOrFail`, 404 when absent) without writing;
* otherwise an `UpdateCommand` with `ConditionExpression:
  attribute_exists(userId)` applies the `SET` clauses and returns
  `ALL_NEW` minus `passwordHash`; a failed condition raises 404. -/
def UsersService.update (hash : String → String) (now : Nat) (store : Store)
    (userId : String) (dto : UpdateUserDto) :
    Except HttpError PublicUser × Store :=
  if strTruthy dto.password ∧ (dto.password.getD "").length < 8 then
    (.error (.badRequest "Password must be at least 8 characters long."), store)
  else if ¬ dto.hasNonPasswordField ∧ ¬ strTruthy dto.password then
    match findOneById store userId with
    | none =>
      (.error (.notFound s!"User with ID \"{userId}\" not found"), store)
    | some u => (.ok (toPublic u), store)
  else
    match findOneById store userId with
    | none =>
      (.error (.notFound s!"User with ID \"{userId}\" not found."), store)
    | some u =>
      let u' := applyUpdate hash now dto u
      (.ok (toPublic u'), putItem store userId u')

/-- `UsersService.remove`: `DeleteCommand` with `ConditionExpression:
attribute_exists(userId)`; a failed condition raises 404. -/
def UsersService.remove (store : Store) (userId : String) :
    Except HttpError Unit × Store :=
  match findOneById store userId with
  | none => (.error (.notFound s!"User with ID \"{userId}\" not found."), store)
  | some _ => (.ok (), store.filter (fun u => u.userId ≠ userId))

/-- `PATCH /users/:id` handler (`UsersController.update`).  The self-
protection guard is, verbatim from the source,
`id === adminUserId && (updateUserDto.role !== UserRole.ADMIN ||
updateUserDto.isDisabled)` — note that an absent `role`
(`undefined !== 'ADMIN'`) also trips the guard. -/
def UsersController.update (hash : String → String) (now : Nat)
    (store : Store) (adminUserId : String) (id : String)
    (dto : UpdateUserDto) : Except HttpError PublicUser × Store :=
  if id = adminUserId ∧ (dto.role ≠ some UserRole.ADMIN ∨ dto.isDisabled = some true) then
    (.error (.forbidden "Admins cannot change their own role or disable themselves."),
      store)
  else
    UsersService.update hash now store id dto

/-- `DELETE /users/:id` handler (`UsersController.remove`): 403 when the
admin targets their own id, then delegates to `UsersService.remove`. -/
def UsersController.remove (store : Store) (adminUserId : String)
    (id : String) : Except HttpError Unit × Store :=
  if id = adminUserId then
    (.error (.forbidden "Admins cannot delete their own account."), store)
  else
    UsersService.remove store id

/-- HTTP status of the `DELETE /users/:id` response:
`@HttpCode(HttpStatus.NO_CONTENT)` on success (204, empty body), the
exception's own status otherwise. -/
def removeStatus (r : Except HttpError Unit) : Nat :=
  match r with
  | .ok _ => 204
  | .error e => e.status

/-- `UsersService.findAll`: `ScanCommand` whose `ProjectionExpression`
lists exactly the non-hash attributes
(`userId, email, firstName, lastName, #rl, isDisabled, createdAt,
updatedAt, avatarUrl`). -/
def UsersService.findAll (store : Store) : List PublicUser :=
  store.map toPublic

/-- `GET /users/:id` handler (`UsersController.findOne`):
`findOneByIdOrFail` then strips `passwordHash` by destructuring. -/
def UsersController.findOne (store : Store) (id : String) :
    Except HttpError PublicUser :=
  match findOneById store id with
  | none => .error (.notFound s!"User with ID \"{id}\" not found")
  | some u => .ok (toPublic u)

/-- `GET /users/profile` handler (`UsersController.getProfile`): fetches
the authenticated caller's own record and strips `passwordHash`. -/
def UsersController.getProfile (store : Store) (userId : String) :
    Except HttpError PublicUser :=
  match findOneById store userId with
  | none => .error (.notFound s!"User with ID \"{userId}\" not found")
  | some u => .ok (toPublic u)

/-- The JWT claim set (`jwt-payload.interface.ts`). -/
structure JwtPayload where
  email : String
  sub : String
  role : UserRole
  avatarUrl : Option String
deriving DecidableEq, Repr

/-- `AuthenticatedUser` (`authenticated-user.interface.ts`) — what
`JwtStrategy.validate` attaches to the request context. -/
structure AuthenticatedUser where
  userId : String
  email : String
  role : UserRole
  avatarUrl : Option String
deriving DecidableEq, Repr

/-- `JwtStrategy.validate`: called after signature/expiry checks pass;
re-fetches the live record by `payload.sub` and rejects with 401 when it
is absent or disabled, otherwise derives the request identity from the
payload. -/
def JwtStrategy.validate (store : Store) (payload : JwtPayload) :
    Except HttpError AuthenticatedUser :=
  match findOneById store payload.sub with
  | none => .error (.unauthorized "User not found or disabled.")
  | some u =>
    if u.isDisabled then
      .error (.unauthorized "User not found or disabled.")
    else
      .ok { userId := payload.sub
            email := payload.email
            role := payload.role
            avatarUrl := payload.avatarUrl }

/-- `AuthService.validateUser`: looks up by normalized email; `null`
(here `Option.none`) when the user is absent or the hash comparison
fails; throws 401 "Account has been disabled. Try again later." when the
record is flagged disabled; on success returns the record minus its
hash. -/
def AuthService.validateUser (compare : String → String → Bool)
    (store : Store) (email pass : String) :
    Except HttpError (Option PublicUser) :=
  match findOneByEmail store email with
  | none => .ok none
  | some u =>
    if u.isDisabled then
      .error (.unauthorized "Account has been disabled. Try again later.")
    else if compare pass u.passwordHash then
      .ok (some (toPublic u))
    else
      .ok none

/-- The `200 \x7baccess_token\x7d` login response body. -/
structure LoginResponse where
  access_token : String
deriving DecidableEq, Repr

/-- `AuthService.login`: guards against falsy `userId`/`email` (500),
then signs `\x7bemail, sub, role, avatarUrl || null\x7d`. -/
def AuthService.login (sign : JwtPayload → String) (u : PublicUser) :
    Except HttpError LoginResponse :=
  if u.userId = "" ∨ u.email = "" then
    .error (.internal "Cannot generate token due to invalid user data.")
  else
    let payload : JwtPayload :=
      { email := u.email
        sub := u.userId
        role := u.role
        avatarUrl := if strTruthy u.avatarUrl then u.avatarUrl else none }
    .ok { access_token := sign payload }

/-- `POST /auth/login` handler (`AuthController.login`): validates the
credentials, throws 401 "Invalid credentials" when validation returns
`null`, otherwise issues the token.  Exceptions thrown inside
`validateUser` (the disabled-account 401) propagate unchanged. -/
def AuthController.login (compare : String → String → Bool)
    (sign : JwtPayload → String) (store : Store) (email pass : String) :
    Except HttpError LoginResponse :=
  match AuthService.validateUser compare store email pass with
  | .error e => .error e
  | .ok none => .error (.unauthorized "Invalid credentials")
  | .ok (some u) => AuthService.login sign u

/-- `POST /auth/register` handler (`AuthController.register`).
`AuthService.register` just forwards `UsersService.create` (re-throwing
whatever it catches); the controller's own `try/catch` re-throws only
`ConflictException` and `BadRequestException` — any other exception is
swallowed and the handler falls through returning `undefined`, which the
framework serializes as a 201 with an empty body.  `Option.none` in the
success position models that empty 201 body. -/
def AuthController.register (hash : String → String) (newId : String)
    (now : Nat) (putOk : Bool) (store : Store) (dto : CreateUserDto) :
    Except HttpError (Option PublicUser) × Store :=
  match UsersService.create hash newId now putOk store dto with
  | (.ok u, store') => (.ok (some u), store')
  | (.error e, store') =>
    match e with
    | .conflict m => (.error (.conflict m), store')
    | .badRequest m => (.error (.badRequest m), store')
    | _ => (.ok none, store')

/-- A JSON value as it arrives in a request body (the fragment the
profile DTO cares about). -/
inductive JsonVal where
  | str (s : String)
  | boolean (b : Bool)
  | num (n : Nat)
  | null
deriving DecidableEq, Repr

/-- A raw JSON request body: property names with their values. -/
abbrev JsonBody := List (String × JsonVal)

/-- First value bound to a property name, if any. -/
def lookupKey (body : JsonBody) (k : String) : Option JsonVal :=
  (body.find? (fun p => p.1 = k)).map (fun p => p.2)

/-- `UpdateProfileDto` (users/dto/update-profile.dto.ts): only
`firstName`, `lastName`, `avatarUrl`, all optional strings. -/
structure UpdateProfileDto where
  firstName : Option String := none
  lastName : Option String := none
  avatarUrl : Option String := none
deriving DecidableEq, Repr

/-- One `@IsString() @IsOptional()` field under the global
`ValidationPipe`: an absent key validates to `none`, a string value to
`some`, anything else is a 400 validation error.  (`@IsUrl` on
`avatarUrl` is abstracted to string-ness, which only admits more
payloads.) -/
def validateStrField (body : JsonBody) (k : String) :
    Except HttpError (Option String) :=
  match lookupKey body k with
  | none => .ok none
  | some (.str s) => .ok (some s)
  | some _ => .error (.badRequest "Validation failed")

/-- The global `ValidationPipe \x7bwhitelist: true, transform: true\x7d`
applied with `UpdateProfileDto`: every property other than `firstName`,
`lastName`, `avatarUrl` is stripped, whatever the body carries. -/
def whitelistProfile (body : JsonBody) : Except HttpError UpdateProfileDto := do
  let fn ← validateStrField body "firstName"
  let ln ← validateStrField body "lastName"
  let av ← validateStrField body "avatarUrl"
  .ok { firstName := fn, lastName := ln, avatarUrl := av }

/-- The structural coercion the source performs by passing an
`UpdateProfileDto` to `UsersService.update` (which expects an
`UpdateUserDto`): `role`, `isDisabled`, `password` are simply absent. -/
def UpdateProfileDto.toUpdateUserDto (d : UpdateProfileDto) : UpdateUserDto :=
  { firstName := d.firstName
    lastName := d.lastName
    avatarUrl := d.avatarUrl
    role := none
    isDisabled := none
    password := none }

/-- `PATCH /users/profile` handler (`UsersController.updateOwnProfile`):
the validated/whitelisted `UpdateProfileDto` for the raw body is handed
to `UsersService.update` keyed by the authenticated caller's id; a
validation failure never reaches the service. -/
def UsersController.updateOwnProfile (hash : String → String) (now : Nat)
    (store : Store) (userId : String) (body : JsonBody) :
    Except HttpError PublicUser × Store :=
  match whitelistProfile body with
  | .error e => (.error e, store)
  | .ok dto => UsersService.update hash now store userId dto.toUpdateUserDto

/-! ## Concrete sample data (used by counterexamples and witnesses) -/

/-- A concrete stand-in for `bcrypt.hash` with fixed salt. -/
def hash0 : String → String := fun s => "H:" ++ s

/-- The matching stand-in for `bcrypt.compare`. -/
def compare0 : String → String → Bool := fun p h => h = "H:" ++ p

/-- A concrete stand-in for `jwtService.sign`. -/
def sign0 : JwtPayload → String := fun p => p.sub ++ ":" ++ p.email

/-- A stored admin record. -/
def alice : User :=
  { userId := "u1"
    email := "alice@x.co"
    passwordHash := "H:password1"
    firstName := "Alice"
    lastName := "A"
    role := UserRole.ADMIN
    isDisabled := false
    createdAt := 0
    updatedAt := 5
    avatarUrl := none }

/-- A stored regular-user record. -/
def bob : User :=
  { userId := "u2"
    email := "bob@x.co"
    passwordHash := "H:password2"
    firstName := "Bob"
    lastName := "B"
    role := UserRole.USER
    isDisabled := false
    createdAt := 1
    updatedAt := 1
    avatarUrl := none }

/-- A stored disabled record. -/
def dana : User :=
  { userId := "u3"
    email := "dana@x.co"
    passwordHash := "H:password3"
    firstName := "Dana"
    lastName := "D"
    role := UserRole.USER
    isDisabled := true
    createdAt := 2
    updatedAt := 2
    avatarUrl := none }

/-- A registration payload that supplies no `role`. -/
def dtoNoRole : CreateUserDto := { email := "new@x.co", password := "password1" }

/-- `alice` with a different stored password hash (used to show read
paths cannot depend on the hash). -/
def alice2 : User := { alice with passwordHash := "H:other" }

/-- All stored emails are in normalized (lowercased) form — the
reachability invariant of the table: every record is written by
`create`, which stores `email.toLowerCase()`. -/
def emailsNormalized (store : Store) : Prop :=
  ∀ u ∈ store, u.email.toLower = u.email

/-- No two stored records share a normalized email. -/
def normEmailsNodup (store : Store) : Prop :=
  store.Pairwise (fun a b => a.email.toLower ≠ b.email.toLower)

/-- The fields of a stored record that `PATCH /users/profile` must not
touch: everything except `firstName`, `lastName`, `avatarUrl`,
`updatedAt`. -/
def frameFields (u : User) : String × String × UserRole × Bool × Nat × String :=
  (u.userId, u.email, u.role, u.isDisabled, u.createdAt, u.passwordHash)

/-! ## Theorems -/

/-- `Char.toLower` is idempotent: lowering lands outside `A`–`Z`. -/
theorem charToLower_toLower (c : Char) : c.toLower.toLower = c.toLower := by
  unfold Char.toLower
  by_cases h : c.toNat ≥ 65 ∧ c.toNat ≤ 90
  · rw [if_pos h]
    have hv : (c.toNat + 32).isValidChar := Or.inl (by omega)
    have hval : (Char.ofNat (c.toNat + 32)).toNat = c.toNat + 32 := by
      rw [Char.ofNat, dif_pos hv]
      simp [Char.ofNatAux, Char.toNat, UInt32.toNat, BitVec.toNat_ofNatLt]
    rw [if_neg]
    rw [hval]
    omega
  · rw [if_neg h, if_neg h]

/-- `String.toLower` is idempotent. -/
theorem strToLower_toLower (s : String) : s.toLower.toLower = s.toLower := by
  simp only [String.toLower, String.map_eq, List.map_map]
  congr 1
  apply List.map_congr_left
  intro c _
  exact charToLower_toLower c

/-- **C1** — The claim says `UsersService.create` defaults the stored
role to `USER` when no role is supplied.  Evaluating the embedded
`create` on a role-less registration payload over the empty store shows
the stored record's role is `ADMIN`: the source line is
`role: createUserDto.role || UserRole.ADMIN`, contradicting the spec and
the `CreateUserDto` comment "otherwise service defaults to USER". -/
theorem C1_create_without_role_stores_admin :
    ((UsersService.create hash0 "u9" 3 true [] dtoNoRole).2.map fun u => u.role)
      = [UserRole.ADMIN] := by
  rfl

/-- **C2** — The claim says a self-targeted `PATCH /users/:id` payload
containing only `firstName` is not rejected with 403.  Evaluating the
embedded handler: admin `u1` patching their own record with
`\x7bfirstName: "Al"\x7d` is rejected with 403 and the store is untouched,
because the guard `updateUserDto.role !== UserRole.ADMIN` is true when
`role` is absent. -/
theorem C2_self_patch_firstName_only_forbidden :
    UsersController.update hash0 10 [alice] "u1" "u1" { firstName := some "Al" } =
      (.error (.forbidden "Admins cannot change their own role or disable themselves."),
        [alice]) := by
  rfl

/-- **C3** (counterexample) — The claim says `updatedAt` always advances,
"including when the payload contains no updatable fields at all".  With
the empty payload at `now = 10`, the embedded `update` returns the record
unchanged: `updatedAt` stays 5 and no write happens. -/
theorem C3_counterexample_empty_payload_updatedAt_frozen :
    UsersService.update hash0 10 [alice] "u1" {} = (.ok (toPublic alice), [alice]) ∧
    (toPublic alice).updatedAt = 5 ∧ (5 : Nat) ≠ 10 := by
  refine ⟨rfl, rfl, by decide⟩

/-- **C8** — The claim says an internal failure of the underlying create
surfaces as a 500, never a success response with an empty body.
Evaluating the embedded pipeline with the store write failing
(`putOk = false`): `UsersService.create` does raise the 500, but
`AuthController.register`'s catch block re-throws only conflict/
bad-request, so the handler returns `undefined` — a success response
with an empty body. -/
theorem C8_register_store_failure_yields_empty_success :
    (UsersService.create hash0 "u9" 3 false [] dtoNoRole).1 =
      .error (.internal "Could not create user.") ∧
    AuthController.register hash0 "u9" 3 false [] dtoNoRole = (.ok none, []) := by
  exact ⟨rfl, rfl⟩

/-- **C7** — Sequentially, registering an email already stored
(compared case-insensitively: the lookup lowercases the query and every
stored email is already normalized) yields the 409 conflict and leaves
the store unchanged; and every successful `create` preserves both the
normalization invariant and the no-two-records-share-a-normalized-email
invariant. -/
theorem C7_create_preserves_email_uniqueness (hash : String → String)
    (newId : String) (now : Nat) (putOk : Bool) (store : Store)
    (dto : CreateUserDto) (hnorm : emailsNormalized store) :
    (dto.email ≠ "" → dto.password ≠ "" →
      (∃ v ∈ store, v.email.toLower = dto.email.toLower) →
      UsersService.create hash newId now putOk store dto =
        (.error (.conflict "Email already registered."), store) ∧
      (HttpError.conflict "Email already registered.").status = 409) ∧
    (normEmailsNodup store →
      ∀ r s', UsersService.create hash newId now putOk store dto = (.ok r, s') →
        emailsNormalized s' ∧ normEmailsNodup s') := by
  constructor
  · rintro he hp ⟨v, hv, hvl⟩
    have hvm : v.email = dto.email.toLower := by rw [← hnorm v hv, hvl]
    have hfind : (findOneByEmail store dto.email).isSome := by
      unfold findOneByEmail
      rw [List.find?_isSome]
      exact ⟨v, hv, by simp [hvm]⟩
    obtain ⟨w, hw⟩ := Option.isSome_iff_exists.mp hfind
    unfold UsersService.create
    rw [if_neg (by simp [he, hp]), hw]
    exact ⟨rfl, rfl⟩
  · intro huniq r s' hok
    unfold UsersService.create at hok
    split at hok
    · simp at hok
    · split at hok
      · simp at hok
      · rename_i hne heq
        split at hok
        · simp at hok
        · split at hok
          · simp at hok
          · rw [Prod.mk.injEq] at hok
            obtain ⟨-, hs'⟩ := hok
            subst hs'
            have hnone : ∀ x ∈ store, ¬ x.email = dto.email.toLower := by
              intro x hx hxe
              have := List.find?_eq_none.mp heq x hx
              simp [hxe] at this
            constructor
            · intro u hu
              rcases List.mem_append.mp hu with h | h
              · exact hnorm u h
              · rcases List.mem_singleton.mp h with rfl
                exact strToLower_toLower dto.email
            · refine List.pairwise_append.mpr ⟨huniq, List.pairwise_singleton _ _, ?_⟩
              intro a ha b hb
              rcases List.mem_singleton.mp hb with rfl
              show a.email.toLower ≠ (dto.email.toLower).toLower
              rw [strToLower_toLower, hnorm a ha]
              exact hnone a ha

/-- Witness for C7 at a concrete input: registering `"Alice@x.co"` (a
case variant of the stored `"alice@x.co"`) over `[alice]` yields the 409
conflict and leaves the table unchanged. -/
theorem C7_create_preserves_email_uniqueness_witness :
    UsersService.create hash0 "u9" 7 true [alice]
      { email := "Alice@x.co", password := "password9" } =
      (.error (.conflict "Email already registered."), [alice]) :=
  ((C7_create_preserves_email_uniqueness hash0 "u9" 7 true [alice]
      { email := "Alice@x.co", password := "password9" }
      (by
        intro u hu
        rcases List.mem_singleton.mp hu with rfl
        simp [alice, String.toLower, String.map_eq])).1
    (by decide) (by decide)
    ⟨alice, List.mem_singleton.mpr rfl,
      by simp [alice, String.toLower, String.map_eq]⟩).1

/-- **C9** — `DELETE /users/:id` by an authenticated admin: 403 with the
store unchanged when the target is the caller's own id; otherwise 404
with the store unchanged when no record has that id; otherwise the
record is removed and the response is 204 with no body. -/
theorem C9_remove_cases (store : Store) (adminId id : String) :
    (id = adminId →
      UsersController.remove store adminId id =
        (.error (.forbidden "Admins cannot delete their own account."), store) ∧
      removeStatus (UsersController.remove store adminId id).1 = 403) ∧
    (id ≠ adminId → findOneById store id = none →
      UsersController.remove store adminId id =
        (.error (.notFound s!"User with ID \"{id}\" not found."), store) ∧
      removeStatus (UsersController.remove store adminId id).1 = 404) ∧
    (id ≠ adminId → (findOneById store id).isSome →
      UsersController.remove store adminId id =
        (.ok (), store.filter (fun u => u.userId ≠ id)) ∧
      removeStatus (UsersController.remove store adminId id).1 = 204) := by
  refine ⟨?_, ?_, ?_⟩
  · intro h
    unfold UsersController.remove
    rw [if_pos h]
    exact ⟨rfl, rfl⟩
  · intro h hn
    unfold UsersController.remove UsersService.remove
    rw [if_neg h, hn]
    exact ⟨rfl, rfl⟩
  · intro h hs
    obtain ⟨u, hu⟩ := Option.isSome_iff_exists.mp hs
    unfold UsersController.remove UsersService.remove
    rw [if_neg h, hu]
    exact ⟨rfl, rfl⟩

/-- Witness for C9: admin `u1` deleting existing `u2` removes exactly
that record and responds 204. -/
theorem C9_remove_cases_witness :
    UsersController.remove [alice, bob] "u1" "u2" =
      (.ok (), List.filter (fun u => u.userId ≠ "u2") [alice, bob]) ∧
    removeStatus (UsersController.remove [alice, bob] "u1" "u2").1 = 204 :=
  (C9_remove_cases [alice, bob] "u1" "u2").2.2 (by decide) (by decide)

/-- **C5** — After signature/expiry checks, `JwtStrategy.validate`
re-fetches the live record by the token's `sub`: it rejects with 401
exactly when the record is absent or disabled (so a token replayed after
its account is disabled fails the next authenticated call), and
otherwise attaches the derived identity. -/
theorem C5_jwt_validate_live_recheck (store : Store) (payload : JwtPayload) :
    (JwtStrategy.validate store payload =
        .error (.unauthorized "User not found or disabled.") ↔
      findOneById store payload.sub = none ∨
        ∃ u, findOneById store payload.sub = some u ∧ u.isDisabled = true) ∧
    (∀ u, findOneById store payload.sub = some u → u.isDisabled = false →
      JwtStrategy.validate store payload =
        .ok { userId := payload.sub, email := payload.email,
              role := payload.role, avatarUrl := payload.avatarUrl }) := by
  constructor
  · constructor
    · intro h
      unfold JwtStrategy.validate at h
      cases hf : findOneById store payload.sub with
      | none => exact .inl rfl
      | some u =>
        rw [hf] at h
        by_cases hd : u.isDisabled
        · exact .inr ⟨u, rfl, hd⟩
        · simp [hd] at h
    · rintro (h | ⟨u, hu, hd⟩)
      · unfold JwtStrategy.validate
        rw [h]
      · unfold JwtStrategy.validate
        rw [hu]
        simp [hd]
  · intro u hu hd
    unfold JwtStrategy.validate
    rw [hu]
    simp [hd]

/-- Witness for C5: a signature-valid token for the disabled `u3` is
rejected by the live re-check. -/
theorem C5_jwt_validate_live_recheck_witness :
    JwtStrategy.validate [dana]
      { email := "dana@x.co", sub := "u3", role := UserRole.USER, avatarUrl := none } =
      .error (.unauthorized "User not found or disabled.") :=
  (C5_jwt_validate_live_recheck [dana]
    { email := "dana@x.co", sub := "u3", role := UserRole.USER, avatarUrl := none }).1.mpr
    (.inr ⟨dana, rfl, rfl⟩)

/-- **C6** — `POST /auth/login`: a wrong password for an existing
enabled account and a nonexistent email produce the very same 401
response value (`UnauthorizedException('Invalid credentials')`), while a
disabled account surfaces the distinct "account disabled" message (also
401). -/
theorem C6_login_indistinguishable_errors (compare : String → String → Bool)
    (sign : JwtPayload → String) (store : Store) :
    (∀ email pass, findOneByEmail store email = none →
      AuthController.login compare sign store email pass =
        .error (.unauthorized "Invalid credentials")) ∧
    (∀ email pass u, findOneByEmail store email = some u →
      u.isDisabled = false → compare pass u.passwordHash = false →
      AuthController.login compare sign store email pass =
        .error (.unauthorized "Invalid credentials")) ∧
    (∀ email pass u, findOneByEmail store email = some u →
      u.isDisabled = true →
      AuthController.login compare sign store email pass =
        .error (.unauthorized "Account has been disabled. Try again later.")) ∧
    (HttpError.unauthorized "Invalid credentials").status = 401 ∧
    (HttpError.unauthorized "Account has been disabled. Try again later.").status = 401 ∧
    "Account has been disabled. Try again later." ≠ "Invalid credentials" := by
  refine ⟨?_, ?_, ?_, rfl, rfl, by decide⟩
  · intro email pass h
    unfold AuthController.login AuthService.validateUser
    rw [h]
  · intro email pass u h hd hc
    unfold AuthController.login AuthService.validateUser
    rw [h]
    simp [hd, hc]
  · intro email pass u h hd
    unfold AuthController.login AuthService.validateUser
    rw [h]
    simp [hd]

/-- Witness for C6: over `[alice, dana]`, wrong password for the enabled
`alice` and a login for the unknown `ghost@x.co` both yield the same
generic 401; the disabled `dana` yields the distinct disabled message. -/
theorem C6_login_indistinguishable_errors_witness :
    AuthController.login compare0 sign0 [alice, dana] "alice@x.co" "bad" =
      .error (.unauthorized "Invalid credentials") ∧
    AuthController.login compare0 sign0 [alice, dana] "ghost@x.co" "bad" =
      .error (.unauthorized "Invalid credentials") ∧
    AuthController.login compare0 sign0 [alice, dana] "dana@x.co" "password3" =
      .error (.unauthorized "Account has been disabled. Try again later.") := by
  have hl1 : ("alice@x.co" : String).toLower = "alice@x.co" := by
    simp [String.toLower, String.map_eq]
  have hl2 : ("ghost@x.co" : String).toLower = "ghost@x.co" := by
    simp [String.toLower, String.map_eq]
  have hl3 : ("dana@x.co" : String).toLower = "dana@x.co" := by
    simp [String.toLower, String.map_eq]
  have e1 : findOneByEmail [alice, dana] "alice@x.co" = some alice := by
    unfold findOneByEmail
    simp only [hl1]
    rfl
  have e2 : findOneByEmail [alice, dana] "ghost@x.co" = none := by
    unfold findOneByEmail
    simp only [hl2]
    rfl
  have e3 : findOneByEmail [alice, dana] "dana@x.co" = some dana := by
    unfold findOneByEmail
    simp only [hl3]
    rfl
  have h := C6_login_indistinguishable_errors compare0 sign0 [alice, dana]
  exact ⟨h.2.1 "alice@x.co" "bad" alice e1 rfl (by decide),
    h.1 "ghost@x.co" "bad" e2,
    h.2.2.1 "dana@x.co" "password3" dana e3 rfl⟩

/-- Key lookup only inspects the hash-free projection of the table:
tables equal up to password hashes give lookups equal up to password
hashes. -/
theorem findOneById_map_toPublic (s1 s2 : Store)
    (h : s1.map toPublic = s2.map toPublic) (uid : String) :
    (findOneById s1 uid).map toPublic = (findOneById s2 uid).map toPublic := by
  induction s1 generalizing s2 with
  | nil =>
    cases s2 with
    | nil => rfl
    | cons b t => simp at h
  | cons a t ih =>
    cases s2 with
    | nil => simp at h
    | cons b t2 =>
      simp only [List.map_cons, List.cons.injEq] at h
      obtain ⟨hab, ht⟩ := h
      have hid : a.userId = b.userId := by
        rw [show a.userId = (toPublic a).userId from rfl, hab]
        rfl
      unfold findOneById
      rcases Decidable.em (a.userId = uid) with hq | hq
      · rw [List.find?_cons_of_pos _ (by simp [hq]),
          List.find?_cons_of_pos _ (by simp [← hid, hq])]
        simpa using hab
      · rw [List.find?_cons_of_neg _ (by simp [hq]),
          List.find?_cons_of_neg _ (by simp [← hid, hq])]
      -- the tails are again equal up to hashes
        exact ih t2 ht

/-- **C4** — No response carries `passwordHash`:
`GET /users` is exactly the hash-free projection of the table; the three
read paths (`GET /users`, `GET /users/:id`, `GET /users/profile`) cannot
depend on any stored hash; the create and update response bodies are
independent of the hashing function; and a successful credential
validation (whose result feeds `POST /auth/login`'s token) returns only
the hash-free projection of the matched record. -/
theorem C4_responses_exclude_password_hash :
    (∀ store : Store, UsersService.findAll store = store.map toPublic) ∧
    (∀ s1 s2 : Store, s1.map toPublic = s2.map toPublic →
      UsersService.findAll s1 = UsersService.findAll s2 ∧
      (∀ uid, UsersController.findOne s1 uid = UsersController.findOne s2 uid) ∧
      (∀ uid, UsersController.getProfile s1 uid = UsersController.getProfile s2 uid)) ∧
    (∀ hash1 hash2 : String → String, ∀ newId now putOk store dto,
      (UsersService.create hash1 newId now putOk store dto).1 =
        (UsersService.create hash2 newId now putOk store dto).1) ∧
    (∀ hash1 hash2 : String → String, ∀ now store uid dto,
      (UsersService.update hash1 now store uid dto).1 =
        (UsersService.update hash2 now store uid dto).1) ∧
    (∀ compare store email pass u,
      AuthService.validateUser compare store email pass = .ok (some u) →
      ∃ v, findOneByEmail store email = some v ∧ u = toPublic v) := by
  refine ⟨fun _ => rfl, ?_, ?_, ?_, ?_⟩
  · intro s1 s2 h
    refine ⟨by simpa [UsersService.findAll] using h, ?_, ?_⟩
    · intro uid
      have hm := findOneById_map_toPublic s1 s2 h uid
      unfold UsersController.findOne
      cases hf1 : findOneById s1 uid with
      | none =>
        cases hf2 : findOneById s2 uid with
        | none => rfl
        | some w => rw [hf1, hf2] at hm; simp at hm
      | some v =>
        cases hf2 : findOneById s2 uid with
        | none => rw [hf1, hf2] at hm; simp at hm
        | some w =>
          rw [hf1, hf2] at hm
          simp only [Option.map_some'] at hm
          rw [Option.some.injEq] at hm
          exact congrArg Except.ok hm
    · intro uid
      have hm := findOneById_map_toPublic s1 s2 h uid
      unfold UsersController.getProfile
      cases hf1 : findOneById s1 uid with
      | none =>
        cases hf2 : findOneById s2 uid with
        | none => rfl
        | some w => rw [hf1, hf2] at hm; simp at hm
      | some v =>
        cases hf2 : findOneById s2 uid with
        | none => rw [hf1, hf2] at hm; simp at hm
        | some w =>
          rw [hf1, hf2] at hm
          simp only [Option.map_some'] at hm
          rw [Option.some.injEq] at hm
          exact congrArg Except.ok hm
  · intro hash1 hash2 newId now putOk store dto
    unfold UsersService.create
    split
    · rfl
    · split
      · rfl
      · split
        · rfl
        · split
          · rfl
          · rfl
  · intro hash1 hash2 now store uid dto
    unfold UsersService.update
    split
    · rfl
    · split
      · split
        · rfl
        · rfl
      · split
        · rfl
        · rfl
  · intro compare store email pass u h
    unfold AuthService.validateUser at h
    cases hf : findOneByEmail store email with
    | none => rw [hf] at h; simp at h
    | some v =>
      rw [hf] at h
      by_cases hd : v.isDisabled
      · simp [hd] at h
      · by_cases hc : compare pass v.passwordHash
        · simp [hd, hc] at h
          exact ⟨v, rfl, h.symm⟩
        · simp [hd, hc] at h

/-- Witness for C4: two tables differing only in `alice`'s stored hash
are indistinguishable to every read path. -/
theorem C4_responses_exclude_password_hash_witness :
    UsersService.findAll [alice] = UsersService.findAll [alice2] ∧
    UsersController.findOne [alice] "u1" = UsersController.findOne [alice2] "u1" ∧
    UsersController.getProfile [alice] "u1" = UsersController.getProfile [alice2] "u1" := by
  have h := C4_responses_exclude_password_hash.2.1 [alice] [alice2] (by rfl)
  exact ⟨h.1, h.2.1 "u1", h.2.2 "u1"⟩

/-- **C3** (amended) — For every valid partial-update payload applied to
an existing user: fields omitted from the payload keep their previous
stored values, and `updatedAt` advances to the time of the update
whenever the payload contains at least one updatable field or a
password; but with a payload containing no updatable fields at all the
record is returned unchanged — no write happens and `updatedAt` does
not advance. -/
theorem C3_update_partial_frame (hash : String → String) (now : Nat)
    (store : Store) (uid : String) (dto : UpdateUserDto) (u : User)
    (hfound : findOneById store uid = some u)
    (hpwlen : strTruthy dto.password = true → 8 ≤ (dto.password.getD "").length) :
    ((dto.hasNonPasswordField = true ∨ strTruthy dto.password = true) →
      UsersService.update hash now store uid dto =
        (.ok (toPublic (applyUpdate hash now dto u)),
          putItem store uid (applyUpdate hash now dto u)) ∧
      (applyUpdate hash now dto u).updatedAt = now ∧
      (dto.firstName = none → (applyUpdate hash now dto u).firstName = u.firstName) ∧
      (dto.lastName = none → (applyUpdate hash now dto u).lastName = u.lastName) ∧
      (dto.role = none → (applyUpdate hash now dto u).role = u.role) ∧
      (dto.isDisabled = none → (applyUpdate hash now dto u).isDisabled = u.isDisabled) ∧
      (dto.avatarUrl = none → (applyUpdate hash now dto u).avatarUrl = u.avatarUrl) ∧
      (strTruthy dto.password = false →
        (applyUpdate hash now dto u).passwordHash = u.passwordHash) ∧
      (applyUpdate hash now dto u).userId = u.userId ∧
      (applyUpdate hash now dto u).email = u.email ∧
      (applyUpdate hash now dto u).createdAt = u.createdAt) ∧
    (dto.hasNonPasswordField = false → strTruthy dto.password = false →
      UsersService.update hash now store uid dto = (.ok (toPublic u), store)) := by
  have hnotbad : ¬ (strTruthy dto.password ∧ (dto.password.getD "").length < 8) := by
    rintro ⟨h1, h2⟩
    have := hpwlen h1
    omega
  constructor
  · intro hsome
    refine ⟨?_, rfl, ?_, ?_, ?_, ?_, ?_, ?_, rfl, rfl, rfl⟩
    · unfold UsersService.update
      rw [if_neg hnotbad]
      have hcond : ¬ (¬ (dto.hasNonPasswordField = true) ∧ ¬ (strTruthy dto.password = true)) := by
        rcases hsome with h | h <;> simp [h]
      rw [if_neg hcond, hfound]
    · intro h
      simp [applyUpdate, h]
    · intro h
      simp [applyUpdate, h]
    · intro h
      simp [applyUpdate, h]
    · intro h
      simp [applyUpdate, h]
    · intro h
      simp [applyUpdate, h]
    · intro h
      simp [applyUpdate, h]
  · intro h1 h2
    unfold UsersService.update
    rw [if_neg hnotbad, if_pos (by simp [h1, h2]), hfound]

/-- Witness for C3 (amended): patching `u1` with only `firstName`
applies the write, advances `updatedAt` to 10 and keeps the other
fields. -/
theorem C3_update_partial_frame_witness :
    UsersService.update hash0 10 [alice] "u1" { firstName := some "Z" } =
      (.ok (toPublic (applyUpdate hash0 10 { firstName := some "Z" } alice)),
        putItem [alice] "u1" (applyUpdate hash0 10 { firstName := some "Z" } alice)) ∧
    (applyUpdate hash0 10 { firstName := some "Z" } alice).updatedAt = 10 ∧
    (applyUpdate hash0 10 { firstName := some "Z" } alice).role = alice.role := by
  have h := (C3_update_partial_frame hash0 10 [alice] "u1"
    { firstName := some "Z" } alice rfl (by decide)).1 (Or.inl (by decide))
  exact ⟨h.1, h.2.1, h.2.2.2.2.1 rfl⟩

/-- On a table with no duplicate userIds, the record a successful lookup
returns is the only record carrying that id. -/
theorem findOneById_unique (store : Store) (uid : String) (u v : User)
    (hnodup : (store.map User.userId).Nodup)
    (hu : findOneById store uid = some u) (hv : v ∈ store)
    (hvid : v.userId = uid) : v = u := by
  induction store with
  | nil => simp [findOneById] at hu
  | cons a t ih =>
    simp only [List.map_cons, List.nodup_cons] at hnodup
    obtain ⟨hna, hnt⟩ := hnodup
    rcases Decidable.em (a.userId = uid) with hq | hq
    · unfold findOneById at hu
      rw [List.find?_cons_of_pos _ (by simp [hq])] at hu
      injection hu with hu
      subst hu
      rcases List.mem_cons.mp hv with rfl | hvt
      · rfl
      · exfalso
        apply hna
        rw [hq, ← hvid]
        exact List.mem_map_of_mem User.userId hvt
    · unfold findOneById at hu
      rw [List.find?_cons_of_neg _ (by simp [hq])] at hu
      rcases List.mem_cons.mp hv with rfl | hvt
      · exact absurd hvid hq
      · exact ih hnt hu hvt

/-- **C10** — `PATCH /users/profile`: whatever properties the raw body
carries, the resulting table agrees with the original on `userId`,
`email`, `role`, `isDisabled`, `createdAt` and `passwordHash` of every
record — only `firstName`, `lastName`, `avatarUrl` and `updatedAt` can
change. -/
theorem C10_profile_update_frame (hash : String → String) (now : Nat)
    (store : Store) (uid : String) (body : JsonBody)
    (hnodup : (store.map User.userId).Nodup) :
    ((UsersController.updateOwnProfile hash now store uid body).2).map frameFields =
      store.map frameFields := by
  have hmain : ∀ dto : UpdateProfileDto,
      ((UsersService.update hash now store uid dto.toUpdateUserDto).2).map frameFields =
        store.map frameFields := by
    intro dto
    unfold UsersService.update
    rw [if_neg (by simp [UpdateProfileDto.toUpdateUserDto, strTruthy])]
    split
    · cases hf : findOneById store uid with
      | none => rfl
      | some u => rfl
    · cases hf : findOneById store uid with
      | none => rfl
      | some u =>
        unfold putItem
        rw [List.map_map]
        apply List.map_congr_left
        intro v hv
        simp only [Function.comp_apply]
        by_cases hvid : v.userId = uid
        · rw [if_pos (by simp [hvid])]
          have hvu : v = u := findOneById_unique store uid u v hnodup hf hv hvid
          subst hvu
          simp [frameFields, applyUpdate, UpdateProfileDto.toUpdateUserDto, strTruthy]
        · rw [if_neg (by simp [hvid])]
  unfold UsersController.updateOwnProfile
  cases hw : whitelistProfile body with
  | error e => rfl
  | ok dto => exact hmain dto

/-- Witness for C10: a body smuggling `role` and `isDisabled` alongside
`firstName` leaves every non-profile field of the table unchanged. -/
theorem C10_profile_update_frame_witness :
    ((UsersController.updateOwnProfile hash0 9 [alice, bob] "u1"
        [("role", JsonVal.str "USER"), ("firstName", JsonVal.str "Zed"),
         ("isDisabled", JsonVal.boolean true)]).2).map frameFields =
      List.map frameFields [alice, bob] :=
  C10_profile_update_frame hash0 9 [alice, bob] "u1"
    [("role", JsonVal.str "USER"), ("firstName", JsonVal.str "Zed"),
     ("isDisabled", JsonVal.boolean true)] (by decide)

end UserMgmt
